import Mathlib

/-!
Verification of the somi-sentinel proposal-authorization protocol.

Shallow embedding of the core components:
  * `Signer` (src/agent/signer.ts): proposal creation, nonce tracking,
    ABI encoding of proposals for signing, proposal validation.
  * `Executor` (contracts/Executor.sol): deadline/signature/nonce checks,
    policy dispatch, vault effect and audit logging, with EVM revert
    semantics (a failed require/call restores the pre-call state).
  * `PolicyManager` (contracts/PolicyManager.sol): per-vault policy storage
    and `validateAction` with Solidity 0.8 checked arithmetic.
  * `AuditLog` (contracts/AuditLog.sol): append-only execution records.

Bytes are modelled as `List Nat` (each entry one byte), uint256 values as
`Nat` with explicit `2 ^ 256` bounds where overflow or truncation matters,
addresses as `Nat` below `2 ^ 160`.  `keccak256` never appears: wherever the
source hashes bytes, the model carries the preimage itself, so equality of
modelled hashes is equality of the hashed byte strings (keccak collisions
are the only gap, and they are exactly what the statements note).

Definitions come first (the embedding), then the theorems.
-/

set_option maxRecDepth 100000

namespace SomiSentinel

/-! ## Byte encoding and the proposal codec -/

abbrev Address := Nat

/-- Big-endian byte encoding of a value into exactly `n` bytes (the low
`8 * n` bits, most significant first), as Solidity's fixed-width types and
ethers' `defaultAbiCoder` lay values out. -/
def beBytes : Nat → Nat → List Nat
  | 0, _ => []
  | n + 1, x => beBytes n (x / 256) ++ [x % 256]

/-- One 32-byte ABI word. -/
def word32 (x : Nat) : List Nat := beBytes 32 x

/-- Read a big-endian byte string back into a `Nat`. -/
def readWord (bs : List Nat) : Nat := bs.foldl (fun acc b => acc * 256 + b) 0

/-- The six fields of a proposal as both the agent and the contracts see
them (`Proposal` in src/agent/types.ts and the argument list of
`Executor.executeProposal`); `ipfsHash` is the spec's `contentHash`. -/
structure Proposal where
  vault : Address
  actionType : Nat
  params : List Nat
  ipfsHash : Nat
  nonce : Nat
  deadline : Nat
deriving DecidableEq

/-- `Signer.encodeProposal`: ethers `defaultAbiCoder.encode` of
`(address, uint8, bytes, bytes32, uint256, uint256)` — six 32-byte head
words (the third is the byte offset 0xC0 = 192 of the dynamic `bytes`
tail), then the tail: the params length word followed by the params bytes
zero-padded to a multiple of 32. -/
def encodeProposal (p : Proposal) : List Nat :=
  word32 p.vault ++ word32 p.actionType ++ word32 192 ++ word32 p.ipfsHash ++
    word32 p.nonce ++ word32 p.deadline ++ word32 p.params.length ++
    p.params ++ List.replicate ((32 - p.params.length % 32) % 32) 0

/-- `Executor._getProposalHash`'s preimage: `abi.encodePacked` of the same
six fields — the address as 20 raw bytes, the uint8 as 1 byte, the params
bytes unpadded and with no length prefix, then three 32-byte words. -/
def encodePacked (p : Proposal) : List Nat :=
  beBytes 20 p.vault ++ beBytes 1 p.actionType ++ p.params ++
    word32 p.ipfsHash ++ word32 p.nonce ++ word32 p.deadline

/-! ## PolicyManager (contracts/PolicyManager.sol) -/

/-- How an EVM call fails: a `require` / `revert` with a message, or a
Solidity 0.8 arithmetic panic (division by zero, checked overflow). -/
inductive SolError where
  | revertMsg (msg : String)
  | panicDivZero
  | panicOverflow
deriving DecidableEq

def UINT256_MAX : Nat := 2 ^ 256 - 1

/-- Solidity 0.8 checked `uint256` multiplication. -/
def cmul (a b : Nat) : Except SolError Nat :=
  if a * b ≤ UINT256_MAX then .ok (a * b) else .error .panicOverflow

/-- Solidity `uint256` division: truncating, and a panic on a zero divisor. -/
def cdiv (a b : Nat) : Except SolError Nat :=
  if b = 0 then .error .panicDivZero else .ok (a / b)

/-- The `Policy` struct of PolicyManager.sol, field for field (it has no
version field). -/
structure Policy where
  riskTolerance : Nat
  maxTradePercent : Nat
  emergencyThreshold : Nat
  allowedDex : List Address
  isActive : Bool
  createdAt : Nat
  updatedAt : Nat
deriving DecidableEq

/-- A never-written mapping slot: Solidity's zero-initialized `Policy`. -/
def Policy.zero : Policy :=
  { riskTolerance := 0, maxTradePercent := 0, emergencyThreshold := 0,
    allowedDex := [], isActive := false, createdAt := 0, updatedAt := 0 }

/-- The `vaultPolicies` mapping: one `Policy` per vault address. -/
def PMState := Address → Policy

def getPolicy (s : PMState) (vault : Address) : Policy := s vault

/-- `PolicyManager.setPolicy`, with the caller's owner status and
`block.timestamp` passed in.  Bound checks come from the modifiers; an
update keeps `createdAt` and overwrites every other field in place. -/
def setPolicy (s : PMState) (isOwner : Bool) (now : Nat) (vault : Address)
    (riskTolerance maxTradePercent emergencyThreshold : Nat)
    (allowedDex : List Address) : Except SolError PMState :=
  if isOwner = false then .error (.revertMsg "Ownable: caller is not the owner")
  else if 100 < riskTolerance then .error (.revertMsg "PolicyManager: Invalid risk tolerance")
  else if 100 < maxTradePercent then .error (.revertMsg "PolicyManager: Invalid trade percent")
  else if 100 < emergencyThreshold then .error (.revertMsg "PolicyManager: Invalid emergency threshold")
  else if vault = 0 then .error (.revertMsg "PolicyManager: Invalid vault address")
  else if allowedDex.length = 0 then .error (.revertMsg "PolicyManager: Must specify at least one DEX")
  else if allowedDex.any (fun d => d = 0) then .error (.revertMsg "PolicyManager: Invalid DEX address")
  else
    .ok (fun a => if a = vault then
          { riskTolerance := riskTolerance, maxTradePercent := maxTradePercent,
            emergencyThreshold := emergencyThreshold, allowedDex := allowedDex,
            isActive := true,
            createdAt := if 0 < (s vault).createdAt then (s vault).createdAt else now,
            updatedAt := now }
        else s a)

/-- `abi.decode(params, (address, uint256, uint256))`: three 32-byte words,
the first with clean upper bits (a 160-bit address). -/
def decodeSwapParams (bs : List Nat) : Except SolError (Address × Nat × Nat) :=
  if bs.length < 96 then .error (.revertMsg "abi.decode: data out of bounds")
  else if readWord (bs.take 32) < 2 ^ 160 then
    .ok (readWord (bs.take 32), readWord ((bs.drop 32).take 32),
         readWord (((bs.drop 32).drop 32).take 32))
  else .error (.revertMsg "abi.decode: dirty address bits")

/-- `abi.decode(params, (uint256, uint256))`: two 32-byte words. -/
def decodePairParams (bs : List Nat) : Except SolError (Nat × Nat) :=
  if bs.length < 64 then .error (.revertMsg "abi.decode: data out of bounds")
  else .ok (readWord (bs.take 32), readWord ((bs.drop 32).take 32))

/-- Swap params as the agent encodes them: `(dex, tradeAmount, vaultBalance)`. -/
def abiEncode3 (d a b : Nat) : List Nat := word32 d ++ (word32 a ++ word32 b)

/-- Lend/borrow params: `(amount, vaultBalance)`. -/
def abiEncode2 (a b : Nat) : List Nat := word32 a ++ word32 b

/-- `PolicyManager._validateSwapAction`: venue whitelist first, then the
trade-size cap `tradeAmount * 100 / vaultBalance > maxTradePercent` with
checked arithmetic (a failing decode or arithmetic panic propagates as the
revert it is on chain). -/
def validateSwapAction (policy : Policy) (params : List Nat) :
    Except SolError (Bool × String) :=
  match decodeSwapParams params with
  | .error e => .error e
  | .ok (dexAddress, tradeAmount, vaultBalance) =>
    if policy.allowedDex.contains dexAddress then
      match cmul tradeAmount 100 with
      | .error e => .error e
      | .ok prod =>
        match cdiv prod vaultBalance with
        | .error e => .error e
        | .ok tradePercent =>
          if policy.maxTradePercent < tradePercent then
            .ok (false, "PolicyManager: Trade size exceeds maximum allowed")
          else .ok (true, "")
    else .ok (false, "PolicyManager: DEX not allowed by policy")

/-- `PolicyManager._validateLendingAction`. -/
def validateLendingAction (policy : Policy) (params : List Nat) :
    Except SolError (Bool × String) :=
  match decodePairParams params with
  | .error e => .error e
  | .ok (lendAmount, vaultBalance) =>
    match cmul lendAmount 100 with
    | .error e => .error e
    | .ok prod =>
      match cdiv prod vaultBalance with
      | .error e => .error e
      | .ok lendPercent =>
        if policy.maxTradePercent < lendPercent then
          .ok (false, "PolicyManager: Lending amount exceeds maximum allowed")
        else .ok (true, "")

/-- `PolicyManager._validateBorrowingAction`. -/
def validateBorrowingAction (policy : Policy) (params : List Nat) :
    Except SolError (Bool × String) :=
  match decodePairParams params with
  | .error e => .error e
  | .ok (borrowAmount, vaultBalance) =>
    match cmul borrowAmount 100 with
    | .error e => .error e
    | .ok prod =>
      match cdiv prod vaultBalance with
      | .error e => .error e
      | .ok borrowPercent =>
        if policy.maxTradePercent < borrowPercent then
          .ok (false, "PolicyManager: Borrowing amount exceeds maximum allowed")
        else .ok (true, "")

/-- `PolicyManager.validateAction`, with the `onlyAuthorizedValidator`
modifier's outcome passed as `senderAuthorized`. -/
def validateAction (s : PMState) (senderAuthorized : Bool) (vault : Address)
    (actionType : Nat) (params : List Nat) : Except SolError (Bool × String) :=
  if senderAuthorized = false then .error (.revertMsg "PolicyManager: Unauthorized validator")
  else
    let policy := s vault
    if policy.createdAt = 0 then .ok (false, "PolicyManager: No policy found for vault")
    else if policy.isActive = false then .ok (false, "PolicyManager: Policy is inactive")
    else if actionType = 0 then validateSwapAction policy params
    else if actionType = 1 then validateLendingAction policy params
    else if actionType = 2 then validateBorrowingAction policy params
    else .ok (false, "PolicyManager: Unsupported action type")

/-! ## Executor (contracts/Executor.sol) and AuditLog (contracts/AuditLog.sol) -/

/-! ## Executor (contracts/Executor.sol) and AuditLog (contracts/AuditLog.sol) -/

def MIN_DEADLINE_DURATION : Nat := 5 * 60

def MAX_DEADLINE_DURATION : Nat := 60 * 60

/-- The `validDeadline` modifier: strictly in the future and inside
`[now + MIN, now + MAX]`. -/
def validDeadline (now deadline : Nat) : Bool :=
  decide (now < deadline) && decide (deadline ≤ now + MAX_DEADLINE_DURATION) &&
    decide (now + MIN_DEADLINE_DURATION ≤ deadline)

/-- The EIP-191 tag `\x19Ethereum Signed Message:\n32` as bytes, prepended
to the proposal hash before recovery. -/
def ethSignedTag : List Nat :=
  [25, 69, 116, 104, 101, 114, 101, 117, 109, 32, 83, 105, 103, 110, 101,
   100, 32, 77, 101, 115, 115, 97, 103, 101, 58, 10, 51, 50]

/-- The message the signature scheme is applied to: the prefixed packed
proposal encoding (the model carries keccak preimages in place of digests). -/
def messageHashOf (p : Proposal) : List Nat := ethSignedTag ++ encodePacked p

/-- An idealized ECDSA signature: the message it signs, the identity it
recovers to on that message, whether recovery succeeds at all (a malformed
`v`/`r`/`s` makes `ecrecover` fail), and its byte length. -/
structure Signature where
  msgHash : List Nat
  signer : Address
  valid : Bool
  len : Nat
deriving DecidableEq

/-- `ecrecover` as the EVM exposes it: the signer on the signed message,
and the ZERO ADDRESS on any failed recovery — it does not revert. -/
def ecrecover (mh : List Nat) (sig : Signature) : Address :=
  if sig.valid = true ∧ sig.msgHash = mh then sig.signer else 0

/-- `Executor._verifySignature`: recover on the prefixed hash and compare
with the registered `agentSigner` — with no check that recovery succeeded
(the length `require`'s revert is folded into the same `false`). -/
def verifySignature (agentSigner : Address) (p : Proposal) (sig : Signature) : Bool :=
  decide (sig.len = 65) && decide (ecrecover (messageHashOf p) sig = agentSigner)

/-- The replay key `keccak256(abi.encodePacked(agentSigner, nonce))`,
modelled injectively as the pair — note it carries NO vault. -/
def nonceKey (agentSigner : Address) (nonce : Nat) : Address × Nat :=
  (agentSigner, nonce)

/-- One `ExecutionLog` entry of AuditLog.sol (the model keeps the proposal
hash as its preimage and drops the EVM-only `blockNumber`/`exists` fields). -/
structure ExecutionLog where
  vault : Address
  executorAddr : Address
  actionType : Nat
  params : List Nat
  proposalHash : List Nat
  ipfsHash : Nat
  timestamp : Nat
deriving DecidableEq

/-- `AuditLog.logExecution` with the `onlyAuthorizedLogger` outcome passed
in; the `proposalHash != 0` require is the empty-preimage check here. -/
def logExecution (authorized : Bool) (logs : List ExecutionLog)
    (vault executorAddr : Address) (actionType : Nat) (params : List Nat)
    (proposalHash : List Nat) (ipfsHash : Nat) (timestamp : Nat) :
    Except SolError (List ExecutionLog) :=
  if authorized = false then .error (.revertMsg "AuditLog: Unauthorized logger")
  else if vault = 0 then .error (.revertMsg "AuditLog: Invalid vault address")
  else if executorAddr = 0 then .error (.revertMsg "AuditLog: Invalid executor address")
  else if proposalHash = [] then .error (.revertMsg "AuditLog: Invalid proposal hash")
  else if ipfsHash = 0 then .error (.revertMsg "AuditLog: Invalid IPFS hash")
  else if logs.any (fun l => l.proposalHash = proposalHash) then
    .error (.revertMsg "AuditLog: Execution already logged")
  else
    .ok (logs ++ [{ vault := vault, executorAddr := executorAddr,
                    actionType := actionType, params := params,
                    proposalHash := proposalHash, ipfsHash := ipfsHash,
                    timestamp := timestamp }])

/-- The Executor's storage together with the stores of the contracts it
calls into (PolicyManager and AuditLog). -/
structure ExecState where
  agentSigner : Address
  usedNonces : List (Address × Nat)
  policies : PMState
  auditLogs : List ExecutionLog

/-- Call context of one `executeProposal` transaction: `block.timestamp`,
`msg.sender`, the Executor's authorization in PolicyManager and AuditLog,
and whether the opaque `Vault.executeAction` external call succeeds. -/
structure CallEnv where
  now : Nat
  sender : Address
  pmAuthorized : Bool
  alAuthorized : Bool
  effectOk : Bool

inductive Reason where
  | deadlineInvalid
  | invalidSignature
  | nonceReused
  | policyViolation (msg : String)
  | policyPanic (e : SolError)
  | effectFailed
  | auditFailed
deriving DecidableEq

inductive ExecResult where
  | executed
  | rejected (r : Reason)
deriving DecidableEq

/-- `Executor.executeProposal` as one atomic EVM transaction: checks in
source order — deadline modifier, signature, nonce mark, policy, vault
effect, audit write — and EVM revert semantics: every failing branch
returns the ORIGINAL state `s`, so a failure after the nonce mark undoes
the mark; only the fully successful path commits the nonce mark together
with the appended log. -/
def executeProposal (s : ExecState) (env : CallEnv) (p : Proposal)
    (sig : Signature) : ExecResult × ExecState :=
  if validDeadline env.now p.deadline then
    if verifySignature s.agentSigner p sig then
      if nonceKey s.agentSigner p.nonce ∈ s.usedNonces then
        (.rejected .nonceReused, s)
      else
        match validateAction s.policies env.pmAuthorized p.vault p.actionType p.params with
        | .error e => (.rejected (.policyPanic e), s)
        | .ok (isValid, reason) =>
          if isValid then
            if env.effectOk then
              match logExecution env.alAuthorized s.auditLogs p.vault env.sender
                  p.actionType p.params (encodePacked p) p.ipfsHash env.now with
              | .error _ => (.rejected .auditFailed, s)
              | .ok logs =>
                (.executed,
                 { s with usedNonces := nonceKey s.agentSigner p.nonce :: s.usedNonces,
                          auditLogs := logs })
            else (.rejected .effectFailed, s)
          else (.rejected (.policyViolation reason), s)
    else (.rejected .invalidSignature, s)
  else (.rejected .deadlineInvalid, s)

/-- `Executor.emergencyPause`: the registered signer becomes the null
identity. -/
def emergencyPause (s : ExecState) : ExecState := { s with agentSigner := 0 }

/-- `Executor.emergencyUnpause`. -/
def emergencyUnpause (s : ExecState) (newAgentSigner : Address) :
    Except SolError ExecState :=
  if newAgentSigner = 0 then .error (.revertMsg "Executor: Invalid agent signer")
  else .ok { s with agentSigner := newAgentSigner }

/-- `Executor.updateAgentSigner`. -/
def updateAgentSigner (s : ExecState) (newAgentSigner : Address) :
    Except SolError ExecState :=
  if newAgentSigner = 0 then .error (.revertMsg "Executor: Invalid agent signer")
  else .ok { s with agentSigner := newAgentSigner }

/-! ### Execution traces over the Executor's externally callable entry points -/

inductive Cmd where
  | exec (env : CallEnv) (p : Proposal) (sig : Signature)
  | pause (isOwner : Bool)
  | unpause (isOwner : Bool) (a : Address)
  | newSigner (isOwner : Bool) (a : Address)
  | setPol (isOwner : Bool) (now : Nat) (vault : Address)
      (rt mtp et : Nat) (dex : List Address)

/-- The state after one call (a reverting call leaves the state as it was). -/
def stepState (s : ExecState) : Cmd → ExecState
  | .exec env p sig => (executeProposal s env p sig).2
  | .pause isOwner => if isOwner then emergencyPause s else s
  | .unpause isOwner a =>
      if isOwner then
        match emergencyUnpause s a with
        | .ok s' => s'
        | .error _ => s
      else s
  | .newSigner isOwner a =>
      if isOwner then
        match updateAgentSigner s a with
        | .ok s' => s'
        | .error _ => s
      else s
  | .setPol isOwner now vault rt mtp et dex =>
      match setPolicy s.policies isOwner now vault rt mtp et dex with
      | .ok pm => { s with policies := pm }
      | .error _ => s

/-- The replay key a fixed `(p, sig)` pair is ever marked under: the
recovered identity is a function of the pair alone, and a run of
`executeProposal` that executes the pair must have `agentSigner` equal to
that identity. -/
def pairKey (p : Proposal) (sig : Signature) : Address × Nat :=
  (ecrecover (messageHashOf p) sig, p.nonce)

/-- Whether one call executes exactly the pair `(p0, sig0)`. -/
def execHit (p0 : Proposal) (sig0 : Signature) (s : ExecState) : Cmd → Nat
  | .exec env p sig =>
    if p = p0 ∧ sig = sig0 ∧ (executeProposal s env p sig).1 = .executed
    then 1 else 0
  | _ => 0

/-- How many calls of a trace execute exactly the pair `(p0, sig0)`. -/
def execCount (p0 : Proposal) (sig0 : Signature) : ExecState → List Cmd → Nat
  | _, [] => 0
  | s, c :: cs => execHit p0 sig0 s c + execCount p0 sig0 (stepState s c) cs

/-! ## Signer (src/agent/signer.ts) -/

/-! ## Signer (src/agent/signer.ts) -/

/-- The Signer's in-memory `nonceTracker: Map<string, number>`, keyed by
vault address; a missing key reads as 0. -/
def NonceMap := List (Address × Nat)

def lookupNonce (m : NonceMap) (vault : Address) : Nat :=
  match m.find? (fun e => e.1 = vault) with
  | some e => e.2
  | none => 0

def setNonce (m : NonceMap) (vault : Address) (n : Nat) : NonceMap :=
  (vault, n) :: m.filter (fun e => ¬ e.1 = vault)

/-- `Signer.getNextNonce`: current tracked nonce + 1, stored back. -/
def getNextNonce (m : NonceMap) (vault : Address) : Nat × NonceMap :=
  let nextNonce := lookupNonce m vault + 1
  (nextNonce, setNonce m vault nextNonce)

/-- The TS `Proposal` as the Signer builds it: numbers are `Int` (TS
numbers can go negative, and `validateProposal` checks `nonce < 0`),
`params` and `ipfsHash` are the strings the agent passes around. -/
structure TSProposal where
  vault : Address
  actionType : Int
  params : String
  ipfsHash : String
  nonce : Int
  deadline : Int
deriving DecidableEq

/-- `Signer.createProposal`: stamps the next per-vault nonce and
`deadline = now + deadlineOffset`, with NO bound, clip or rejection on the
caller's offset (3600 is only the default argument). -/
def createProposal (m : NonceMap) (now : Int) (vault : Address)
    (actionType : Int) (params : String) (ipfsHash : String)
    (deadlineOffset : Int) : TSProposal × NonceMap :=
  let (nonce, m') := getNextNonce m vault
  ({ vault := vault, actionType := actionType, params := params,
     ipfsHash := ipfsHash, nonce := (nonce : Int),
     deadline := now + deadlineOffset }, m')

/-- ethers `isAddress` on the model's numeric addresses. -/
def isAddress (a : Address) : Bool := decide (a < 2 ^ 160)

/-- `Signer.validateProposal`: address shape, action type 0..5, non-empty
params, 66-character content hash, non-negative nonce, and a deadline
strictly after `now` and at most 24 hours ahead. -/
def validateProposal (now : Int) (p : TSProposal) : Bool :=
  isAddress p.vault &&
    (decide (0 ≤ p.actionType) && decide (p.actionType ≤ 5)) &&
    decide (p.params.length ≠ 0) &&
    decide (p.ipfsHash.length = 66) &&
    decide (0 ≤ p.nonce) &&
    decide (now < p.deadline) &&
    decide (p.deadline ≤ now + 24 * 60 * 60)

/-! ## A concrete deployment (the end-to-end scenario of the spec):
one agent key, two vaults under the same active policy
`{riskTolerance 50, maxTradePercent 10, emergencyThreshold 90}` with one
allowed venue, and a first Swap proposal per vault at exactly the cap. -/

/-! ## A concrete deployment (the end-to-end scenario of the spec):
one agent key, two vaults under the same active policy
`{riskTolerance 50, maxTradePercent 10, emergencyThreshold 90}` with one
allowed venue, and concrete proposals over it -/

def dexA : Address := 7

def vaultA : Address := 3

def vaultB : Address := 4

def agentA : Address := 11

def polA : Policy :=
  { riskTolerance := 50, maxTradePercent := 10, emergencyThreshold := 90,
    allowedDex := [dexA], isActive := true, createdAt := 100, updatedAt := 100 }

def pmA : PMState := fun a => if a = vaultA then polA else if a = vaultB then polA else Policy.zero

/-- Vault A's first proposal: Swap of 100 out of a balance of 1000 (10%,
exactly at the cap), nonce 1, deadline 1800. -/
def p0 : Proposal :=
  { vault := vaultA, actionType := 0, params := abiEncode3 dexA 100 1000,
    ipfsHash := 5, nonce := 1, deadline := 1800 }

/-- A genuine agent signature over `p0`. -/
def sig0 : Signature :=
  { msgHash := messageHashOf p0, signer := agentA, valid := true, len := 65 }

def env0 : CallEnv :=
  { now := 1000, sender := 9, pmAuthorized := true, alAuthorized := true,
    effectOk := true }

def s0 : ExecState :=
  { agentSigner := agentA, usedNonces := [], policies := pmA, auditLogs := [] }

/-- A 65-byte signature blob on which ECDSA recovery fails (e.g. a bad
recovery id `v`): `ecrecover` yields the zero address for it. -/
def sigForged : Signature :=
  { msgHash := [], signer := 99, valid := false, len := 65 }

/-- Vault B's first proposal: same policy, same signer, and — as the
Signer's per-vault counters hand out — the same nonce 1 as vault A's first
proposal. -/
def pB : Proposal :=
  { vault := vaultB, actionType := 0, params := abiEncode3 dexA 100 1000,
    ipfsHash := 6, nonce := 1, deadline := 1800 }

def sigB : Signature :=
  { msgHash := messageHashOf pB, signer := agentA, valid := true, len := 65 }

/-- The same transaction context with the vault's opaque
`executeAction` call failing. -/
def envFail : CallEnv :=
  { now := 1000, sender := 9, pmAuthorized := true, alAuthorized := true,
    effectOk := false }

/-- A Swap whose decoded vault-balance snapshot is zero. -/
def pZero : Proposal :=
  { vault := vaultA, actionType := 0, params := abiEncode3 dexA 100 0,
    ipfsHash := 5, nonce := 1, deadline := 1800 }

def sigZ : Signature :=
  { msgHash := messageHashOf pZero, signer := agentA, valid := true, len := 65 }

/-- `p0` with its deadline one second after `env0.now = 1000`. -/
def p1sec : Proposal :=
  { vault := vaultA, actionType := 0, params := abiEncode3 dexA 100 1000,
    ipfsHash := 5, nonce := 1, deadline := 1001 }

def sig1 : Signature :=
  { msgHash := messageHashOf p1sec, signer := agentA, valid := true, len := 65 }

/-- A PolicyManager with no policy set yet. -/
def pmEmpty : PMState := fun _ => Policy.zero

/-- The stored record after the first `setPolicy` call of the C8 run. -/
def polV1 : Policy :=
  { riskTolerance := 50, maxTradePercent := 10, emergencyThreshold := 90,
    allowedDex := [dexA], isActive := true, createdAt := 100, updatedAt := 100 }

/-- The stored record after the second `setPolicy` call of the C8 run. -/
def polV2 : Policy :=
  { riskTolerance := 50, maxTradePercent := 20, emergencyThreshold := 90,
    allowedDex := [dexA], isActive := true, createdAt := 100, updatedAt := 200 }

/-- A well-formed 66-character content hash string. -/
def hash66 : String :=
  "0xaaaaaaaaaaaaaaaaaaaaaaaaaaaaaaaaaaaaaaaaaaaaaaaaaaaaaaaaaaaaaaaa"

/-! ## Codec facts -/

theorem beBytes_length (n x : Nat) : (beBytes n x).length = n := by
  induction n generalizing x with
  | zero => rfl
  | succ n ih => simp [beBytes, ih]

theorem readWord_append_byte (l : List Nat) (b : Nat) :
    readWord (l ++ [b]) = readWord l * 256 + b := by
  simp [readWord, List.foldl_append]

theorem readWord_beBytes (n x : Nat) : readWord (beBytes n x) = x % 256 ^ n := by
  induction n generalizing x with
  | zero => simp [beBytes, readWord, Nat.mod_one]
  | succ n ih =>
    have h : (256 : Nat) ^ (n + 1) = 256 * 256 ^ n := by ring
    rw [beBytes, readWord_append_byte, ih, h, Nat.mod_mul]
    ring

theorem readWord_beBytes_of_lt {n x : Nat} (h : x < 256 ^ n) :
    readWord (beBytes n x) = x := by
  rw [readWord_beBytes, Nat.mod_eq_of_lt h]

theorem word32_length (x : Nat) : (word32 x).length = 32 := beBytes_length 32 x

theorem pow256_32 : (256 : Nat) ^ 32 = 2 ^ 256 := by decide

theorem readWord_word32 {x : Nat} (h : x < 2 ^ 256) : readWord (word32 x) = x := by
  rw [word32, readWord_beBytes, pow256_32, Nat.mod_eq_of_lt h]

theorem encodeProposal_length (p : Proposal) :
    (encodeProposal p).length =
      224 + p.params.length + (32 - p.params.length % 32) % 32 := by
  simp [encodeProposal, word32, beBytes_length]
  omega

theorem encodePacked_length (p : Proposal) :
    (encodePacked p).length = 117 + p.params.length := by
  simp [encodePacked, word32, beBytes_length]
  omega

theorem decodeSwapParams_abiEncode3 {d a b : Nat} (hd : d < 2 ^ 160)
    (ha : a < 2 ^ 256) (hb : b < 2 ^ 256) :
    decodeSwapParams (abiEncode3 d a b) = .ok (d, a, b) := by
  have hlen : (abiEncode3 d a b).length = 96 := by
    simp [abiEncode3, word32_length]
  have htake : (abiEncode3 d a b).take 32 = word32 d :=
    List.take_left' (word32_length d)
  have hdrop : (abiEncode3 d a b).drop 32 = word32 a ++ word32 b :=
    List.drop_left' (word32_length d)
  have htk32 : (word32 b).take 32 = word32 b := by
    rw [← word32_length b]
    exact List.take_length (word32 b)
  rw [decodeSwapParams, hlen, htake, hdrop, List.take_left' (word32_length a),
    List.drop_left' (word32_length a), htk32, readWord_word32 hb,
    readWord_word32 (lt_trans hd (by norm_num)),
    readWord_word32 ha]
  rw [if_neg (by omega), if_pos hd]

/-! ## Facts about one executeProposal call and about traces -/

/-- Inversion of a successful execution: every check passed, the registered
signer is the recovered identity, the pair's replay key was fresh and is
now marked, and nothing else of the Executor's own storage moved. -/
theorem executeProposal_executed_inv {s : ExecState} {env : CallEnv}
    {p : Proposal} {sig : Signature} {s' : ExecState}
    (h : executeProposal s env p sig = (.executed, s')) :
    validDeadline env.now p.deadline = true ∧
    verifySignature s.agentSigner p sig = true ∧
    s.agentSigner = ecrecover (messageHashOf p) sig ∧
    pairKey p sig ∉ s.usedNonces ∧
    s'.agentSigner = s.agentSigner ∧
    s'.usedNonces = pairKey p sig :: s.usedNonces := by
  unfold executeProposal at h
  split at h
  case isFalse => simp at h
  case isTrue hd =>
  split at h
  case isFalse => simp at h
  case isTrue hv =>
  have hv' := hv
  rw [verifySignature, Bool.and_eq_true, decide_eq_true_iff, decide_eq_true_iff] at hv'
  have hkey : pairKey p sig = nonceKey s.agentSigner p.nonce := by
    rw [pairKey, nonceKey, hv'.2]
  split at h
  case isTrue => simp at h
  case isFalse hn =>
  split at h
  case h_1 => simp at h
  case h_2 =>
  split at h
  case isFalse => simp at h
  case isTrue =>
  split at h
  case isFalse => simp at h
  case isTrue =>
  split at h
  case h_1 => simp at h
  case h_2 logs hlog =>
  injection h with h1 h2
  subst h2
  exact ⟨hd, hv, hv'.2.symm, by rw [hkey]; exact hn, rfl, by rw [hkey]⟩

/-- Each call either executes or, by revert semantics, leaves the state
exactly as it was. -/
theorem executeProposal_executed_or_unchanged (s : ExecState) (env : CallEnv)
    (p : Proposal) (sig : Signature) :
    (executeProposal s env p sig).1 = .executed ∨
    (executeProposal s env p sig).2 = s := by
  unfold executeProposal
  (repeat' split) <;> simp

/-- The used-nonce set either stays put or gains the marked key. -/
theorem executeProposal_usedNonces (s : ExecState) (env : CallEnv)
    (p : Proposal) (sig : Signature) :
    (executeProposal s env p sig).2.usedNonces = s.usedNonces ∨
    (executeProposal s env p sig).2.usedNonces =
      nonceKey s.agentSigner p.nonce :: s.usedNonces := by
  unfold executeProposal
  (repeat' split) <;> simp

/-- No entry point ever removes a used nonce key. -/
theorem stepState_usedNonces_mono {k : Address × Nat} (s : ExecState) (c : Cmd)
    (h : k ∈ s.usedNonces) : k ∈ (stepState s c).usedNonces := by
  cases c with
  | exec env p sig =>
    rcases executeProposal_usedNonces s env p sig with h2 | h2 <;>
      rw [stepState, h2]
    · exact h
    · exact List.mem_cons_of_mem _ h
  | pause o =>
    rw [stepState]
    split
    · exact h
    · exact h
  | unpause o a =>
    rw [stepState]
    split
    · split
      · rename_i s' hs'
        rw [emergencyUnpause] at hs'
        split at hs'
        · simp at hs'
        · injection hs' with hs'
          subst hs'
          exact h
      · exact h
    · exact h
  | newSigner o a =>
    rw [stepState]
    split
    · split
      · rename_i s' hs'
        rw [updateAgentSigner] at hs'
        split at hs'
        · simp at hs'
        · injection hs' with hs'
          subst hs'
          exact h
      · exact h
    · exact h
  | setPol o now vault rt mtp et dex =>
    rw [stepState]
    split
    · exact h
    · exact h

/-- Once a pair's replay key is marked, no suffix of the trace executes the
pair again. -/
theorem execCount_eq_zero_of_mem (p0 : Proposal) (sig0 : Signature)
    (s : ExecState) (cs : List Cmd) (h : pairKey p0 sig0 ∈ s.usedNonces) :
    execCount p0 sig0 s cs = 0 := by
  induction cs generalizing s with
  | nil => rfl
  | cons c cs ih =>
    rw [execCount, ih (stepState s c) (stepState_usedNonces_mono s c h),
      Nat.add_zero]
    cases c with
    | exec env p sig =>
      show (if p = p0 ∧ sig = sig0 ∧ (executeProposal s env p sig).1 = .executed
            then 1 else 0) = 0
      split
      · rename_i hcond
        obtain ⟨hp, hsig, hex⟩ := hcond
        rw [hp, hsig] at hex
        have hfull : executeProposal s env p0 sig0 =
            (.executed, (executeProposal s env p0 sig0).2) := by
          rw [← hex]
        exact absurd h (executeProposal_executed_inv hfull).2.2.2.1
      · rfl
    | pause o => rfl
    | unpause o a => rfl
    | newSigner o a => rfl
    | setPol o now vault rt mtp et dex => rfl

/-- No trace, from any state, executes a fixed `(proposal, signature)` pair
more than once. -/
theorem execCount_le_one (p0 : Proposal) (sig0 : Signature) (s : ExecState)
    (cs : List Cmd) : execCount p0 sig0 s cs ≤ 1 := by
  induction cs generalizing s with
  | nil => exact Nat.zero_le 1
  | cons c cs ih =>
    rw [execCount]
    cases c with
    | exec env p sig =>
      show (if p = p0 ∧ sig = sig0 ∧ (executeProposal s env p sig).1 = .executed
            then 1 else 0) +
          execCount p0 sig0 (stepState s (.exec env p sig)) cs ≤ 1
      split
      · rename_i hcond
        obtain ⟨hp, hsig, hex⟩ := hcond
        rw [hp, hsig] at hex ⊢
        have hfull : executeProposal s env p0 sig0 =
            (.executed, (executeProposal s env p0 sig0).2) := by
          rw [← hex]
        have hmem : pairKey p0 sig0 ∈
            (stepState s (.exec env p0 sig0)).usedNonces := by
          show pairKey p0 sig0 ∈ (executeProposal s env p0 sig0).2.usedNonces
          rw [(executeProposal_executed_inv hfull).2.2.2.2.2]
          exact List.mem_cons_self _ _
        rw [execCount_eq_zero_of_mem p0 sig0 _ cs hmem]
      · rw [Nat.zero_add]
        exact ih _
    | pause o =>
      show 0 + execCount p0 sig0 (stepState s (.pause o)) cs ≤ 1
      rw [Nat.zero_add]
      exact ih _
    | unpause o a =>
      show 0 + execCount p0 sig0 (stepState s (.unpause o a)) cs ≤ 1
      rw [Nat.zero_add]
      exact ih _
    | newSigner o a =>
      show 0 + execCount p0 sig0 (stepState s (.newSigner o a)) cs ≤ 1
      rw [Nat.zero_add]
      exact ih _
    | setPol o now vault rt mtp et dex =>
      show 0 + execCount p0 sig0 (stepState s (.setPol o now vault rt mtp et dex)) cs ≤ 1
      rw [Nat.zero_add]
      exact ih _

/-! ## The claims -/

/-! ## The claims -/

/-- Claim C1: the Signer's keccak preimage (`defaultAbiCoder.encode`) and
the Executor's keccak preimage (`abi.encodePacked`) over the same six
proposal fields are never the same byte string — the padded ABI encoding
is at least 107 bytes longer — so the hash the Signer signs and the hash
`_getProposalHash` recomputes are hashes of different messages for every
proposal, and agree only on a keccak collision. -/
theorem signer_executor_encodings_always_differ (p : Proposal) :
    encodeProposal p ≠ encodePacked p := by
  intro h
  have hl := congrArg List.length h
  rw [encodeProposal_length, encodePacked_length] at hl
  omega

/-! ## PolicyManager (contracts/PolicyManager.sol) -/

/-- Claim C2: a valid signed pair submitted twice yields `Executed` and
then the typed `NonceReused` rejection (the used key survives the success
commit), and over every trace of Executor entry points — executions, pause,
unpause, signer rotation, policy updates — a fixed `(p, signature)` pair is
executed at most once. -/
theorem replay_second_submission_nonce_reused :
    (∀ (s : ExecState) (env : CallEnv) (p : Proposal) (sig : Signature)
        (s' : ExecState),
        executeProposal s env p sig = (.executed, s') →
        executeProposal s' env p sig = (.rejected .nonceReused, s')) ∧
    (∀ (p0 : Proposal) (sig0 : Signature) (s : ExecState) (cs : List Cmd),
        execCount p0 sig0 s cs ≤ 1) := by
  refine ⟨?_, execCount_le_one⟩
  intro s env p sig s' h
  obtain ⟨hd, hv, hrec, hnot, hsg, hun⟩ := executeProposal_executed_inv h
  have hvs : verifySignature s'.agentSigner p sig = true := by
    rw [hsg]
    exact hv
  have hmem : nonceKey s'.agentSigner p.nonce ∈ s'.usedNonces := by
    have hk : nonceKey s.agentSigner p.nonce = pairKey p sig := by
      rw [nonceKey, pairKey, hrec]
    rw [hsg, hun, hk]
    exact List.mem_cons_self _ _
  unfold executeProposal
  rw [if_pos hd, if_pos hvs, if_pos hmem]

/-- Claim C3 (refuting evaluation): after `emergencyPause` the registered
signer is the null identity, but a malformed signature also RECOVERS to
the null identity, so `_verifySignature`'s bare `recovered == agentSigner`
comparison passes and the proposal is EXECUTED while paused — not rejected
as `InvalidSignature`. -/
theorem paused_executor_executes_forged_signature :
    (emergencyPause s0).agentSigner = 0 ∧
    ecrecover (messageHashOf p0) sigForged = 0 ∧
    verifySignature (emergencyPause s0).agentSigner p0 sigForged = true ∧
    (executeProposal (emergencyPause s0) env0 p0 sigForged).1 = .executed :=
  ⟨rfl, rfl, rfl, rfl⟩

/-- Claim C4 counterexample: under the active policy with
`maxTradePercent = 10` and balance 1000, the exact-cap trade of 100 passes
— and the one-unit-above trade of 101 ALSO passes, because
`101 * 100 / 1000` truncates to 10, against the claim that one unit above
the exact cap is rejected as a policy violation. -/
theorem swap_one_unit_above_cap_accepted :
    polA.maxTradePercent = 10 ∧
    validateAction pmA true vaultA 0 (abiEncode3 dexA 100 1000) = .ok (true, "") ∧
    validateAction pmA true vaultA 0 (abiEncode3 dexA 101 1000) = .ok (true, "") :=
  ⟨rfl, rfl, rfl⟩

/-- Claim C4 (amended): for an active policy, an allowed venue and a
non-zero balance, the swap check accepts exactly the trades with
`tradeAmount * 100 / vaultBalance ≤ maxTradePercent` under truncating
integer division — so the exact-cap amount passes, and the amount one unit
above is rejected only when `vaultBalance ≤ 100` makes the extra unit
visible after truncation. -/
theorem swap_cap_truncating_division (s : PMState) (v dex amt bal : Nat)
    (hc : (s v).createdAt ≠ 0) (hact : (s v).isActive = true)
    (hdex : dex ∈ (s v).allowedDex) (hd : dex < 2 ^ 160)
    (hbal : bal ≠ 0) (hbal2 : bal < 2 ^ 256) (hov : amt * 100 ≤ UINT256_MAX) :
    validateAction s true v 0 (abiEncode3 dex amt bal) =
      .ok (if (s v).maxTradePercent < amt * 100 / bal
           then (false, "PolicyManager: Trade size exceeds maximum allowed")
           else (true, "")) := by
  have ha : amt < 2 ^ 256 := by
    have : amt ≤ amt * 100 := Nat.le_mul_of_pos_right amt (by norm_num)
    have : amt * 100 ≤ 2 ^ 256 - 1 := hov
    omega
  rw [validateAction]
  rw [if_neg (by simp), if_neg hc, if_neg (by simp [hact]), if_pos rfl]
  by_cases hcap : (s v).maxTradePercent < amt * 100 / bal
  · simp [validateSwapAction, decodeSwapParams_abiEncode3 hd ha hbal2,
      cmul, cdiv, hdex, hov, hbal, hcap]
  · simp [validateSwapAction, decodeSwapParams_abiEncode3 hd ha hbal2,
      cmul, cdiv, hdex, hov, hbal, hcap]

theorem swap_cap_truncating_division_witness :
    validateAction pmA true vaultA 0 (abiEncode3 dexA 100 1000) =
      .ok (if (pmA vaultA).maxTradePercent < 100 * 100 / 1000
           then (false, "PolicyManager: Trade size exceeds maximum allowed")
           else (true, "")) :=
  swap_cap_truncating_division pmA vaultA dexA 100 1000 (by decide) (by decide)
    (by decide) (by decide) (by decide) (by decide) (by decide)

/-! ## Policy versioning (Claim C8) -/

/-- Claim C5 (refuting evaluation): the Executor's replay key
`keccak256(agentSigner, nonce)` carries no vault, so after vault A's
nonce-1 proposal executes, vault B's otherwise-valid nonce-1 proposal is
rejected as `NonceReused` instead of executing. -/
theorem cross_vault_same_nonce_rejected :
    p0.vault ≠ pB.vault ∧
    (executeProposal s0 env0 p0 sig0).1 = .executed ∧
    (executeProposal ((executeProposal s0 env0 p0 sig0).2) env0 pB sigB).1 =
      .rejected .nonceReused :=
  ⟨by decide, rfl, rfl⟩

/-- Claim C6 counterexample: a proposal whose effect step fails is rejected
with the WHOLE state reverted — the post-state is the pre-state `s0`, the
nonce is not consumed — and resubmitting the identical pair afterwards is
not `NonceReused`: it executes. -/
theorem failed_effect_frees_nonce_for_resubmission :
    executeProposal s0 envFail p0 sig0 = (.rejected .effectFailed, s0) ∧
    (executeProposal s0 env0 p0 sig0).1 = .executed :=
  ⟨rfl, rfl⟩

/-- Claim C6 (amended): any rejected `executeProposal` — policy failure,
effect failure, audit failure included — leaves the Executor's state
exactly as it was: EVM revert semantics undo the nonce mark made earlier
in the pass, so a failed effect never leaves the nonce consumed. -/
theorem rejected_execution_reverts_state (s : ExecState) (env : CallEnv)
    (p : Proposal) (sig : Signature) (r : Reason)
    (h : (executeProposal s env p sig).1 = .rejected r) :
    (executeProposal s env p sig).2 = s := by
  rcases executeProposal_executed_or_unchanged s env p sig with h1 | h1
  · rw [h1] at h
    exact absurd h (by simp)
  · exact h1

theorem rejected_execution_reverts_state_witness :
    (executeProposal s0 envFail p0 sig0).2 = s0 :=
  rejected_execution_reverts_state s0 envFail p0 sig0 .effectFailed rfl

/-- Claim C7 counterexample: a validly signed, policy-passing proposal
whose deadline is one second in the future is REJECTED as deadline-invalid
(`MIN_DEADLINE_DURATION` is five minutes), against the claim that it is
accepted when all other checks pass. -/
theorem deadline_one_second_ahead_rejected :
    env0.now < p1sec.deadline ∧
    (executeProposal s0 env0 p1sec sig1).1 = .rejected .deadlineInvalid :=
  ⟨by decide, rfl⟩

/-- Claim C7 (amended): the deadline gate accepts exactly the window
`now < deadline ≤ now + MAX` with `now + MIN ≤ deadline` (five minutes to
one hour ahead), and `executeProposal` returns the deadline rejection iff
that gate fails — in particular the gate is decided first, whatever the
signature, nonce or policy state, and a deadline only one second ahead is
inside the rejection region. -/
theorem deadline_window_characterization (s : ExecState) (env : CallEnv)
    (p : Proposal) (sig : Signature) :
    (validDeadline env.now p.deadline = true ↔
      env.now < p.deadline ∧ p.deadline ≤ env.now + MAX_DEADLINE_DURATION ∧
        env.now + MIN_DEADLINE_DURATION ≤ p.deadline) ∧
    ((executeProposal s env p sig).1 = .rejected .deadlineInvalid ↔
      validDeadline env.now p.deadline = false) := by
  constructor
  · rw [validDeadline]
    simp only [Bool.and_eq_true, decide_eq_true_iff]
    tauto
  · constructor
    · intro h
      by_cases hd : validDeadline env.now p.deadline
      · exfalso
        unfold executeProposal at h
        rw [if_pos hd] at h
        revert h
        (repeat' split) <;> simp
      · simpa using hd
    · intro h
      unfold executeProposal
      rw [h]
      simp

/-! ## Decoding round-trips for the swap-cap analysis -/

/-- Claim C8 counterexample: `setPolicy` twice on the same vault leaves the
vault's single mapping slot holding only the second call's parameters
(active, `createdAt` kept): the first call's record — `maxTradePercent`
10 — is overwritten, not retained as a deactivated version 1, and the
stored `Policy` struct carries no version number at all. -/
theorem set_policy_twice_overwrites :
    Except.map (fun s1 => getPolicy s1 vaultA)
        (setPolicy pmEmpty true 100 vaultA 50 10 90 [dexA]) = .ok polV1 ∧
    Except.map (fun s2 => getPolicy s2 vaultA)
        (Except.bind (setPolicy pmEmpty true 100 vaultA 50 10 90 [dexA])
          (fun s1 => setPolicy s1 true 200 vaultA 50 20 90 [dexA])) = .ok polV2 ∧
    polV2 ≠ polV1 :=
  ⟨rfl, rfl, by decide⟩

/-- Claim C8 (amended): two `setPolicy` calls on a fresh vault leave
exactly one policy stored for it — a function of the SECOND call's
parameters only, active, with `createdAt` stamped by the first call and
`updatedAt` by the second; every other vault still reads the zero record.
The previous parameters are not retained anywhere in the store. -/
theorem set_policy_update_overwrites (v : Address) (now1 now2 : Nat)
    (rt1 mtp1 et1 rt2 mtp2 et2 : Nat) (dex1 dex2 : List Address)
    (hv : v ≠ 0) (hn : 0 < now1)
    (hb1 : rt1 ≤ 100 ∧ mtp1 ≤ 100 ∧ et1 ≤ 100)
    (hb2 : rt2 ≤ 100 ∧ mtp2 ≤ 100 ∧ et2 ≤ 100)
    (hd1 : dex1 ≠ [] ∧ dex1.any (fun d => d = 0) = false)
    (hd2 : dex2 ≠ [] ∧ dex2.any (fun d => d = 0) = false) :
    Except.bind (setPolicy pmEmpty true now1 v rt1 mtp1 et1 dex1)
        (fun s1 => setPolicy s1 true now2 v rt2 mtp2 et2 dex2) =
      .ok (fun a => if a = v then
            { riskTolerance := rt2, maxTradePercent := mtp2,
              emergencyThreshold := et2, allowedDex := dex2, isActive := true,
              createdAt := now1, updatedAt := now2 }
          else Policy.zero) := by
  obtain ⟨h1a, h1b, h1c⟩ := hb1
  obtain ⟨h2a, h2b, h2c⟩ := hb2
  obtain ⟨hd1a, hd1b⟩ := hd1
  obtain ⟨hd2a, hd2b⟩ := hd2
  have e1 : setPolicy pmEmpty true now1 v rt1 mtp1 et1 dex1 =
      .ok (fun a => if a = v then
            { riskTolerance := rt1, maxTradePercent := mtp1,
              emergencyThreshold := et1, allowedDex := dex1, isActive := true,
              createdAt := now1, updatedAt := now1 }
          else Policy.zero) := by
    rw [setPolicy]
    rw [if_neg (by simp), if_neg (Nat.not_lt.mpr h1a),
      if_neg (Nat.not_lt.mpr h1b), if_neg (Nat.not_lt.mpr h1c), if_neg hv,
      if_neg (by simpa [List.length_eq_zero] using hd1a), if_neg (by simp [hd1b])]
    rfl
  rw [e1]
  show setPolicy _ true now2 v rt2 mtp2 et2 dex2 = _
  rw [setPolicy]
  rw [if_neg (by simp), if_neg (Nat.not_lt.mpr h2a),
    if_neg (Nat.not_lt.mpr h2b), if_neg (Nat.not_lt.mpr h2c), if_neg hv,
    if_neg (by simpa [List.length_eq_zero] using hd2a), if_neg (by simp [hd2b])]
  refine congrArg Except.ok (funext fun a => ?_)
  by_cases hav : a = v
  · simp only [hav, if_pos rfl]
    simp [hn]
  · rw [if_neg hav, if_neg hav, if_neg hav]

theorem set_policy_update_overwrites_witness :
    Except.bind (setPolicy pmEmpty true 100 vaultA 50 10 90 [dexA])
        (fun s1 => setPolicy s1 true 200 vaultA 50 20 90 [dexA]) =
      .ok (fun a => if a = vaultA then
            { riskTolerance := 50, maxTradePercent := 20,
              emergencyThreshold := 90, allowedDex := [dexA], isActive := true,
              createdAt := 100, updatedAt := 200 }
          else Policy.zero) :=
  set_policy_update_overwrites vaultA 100 200 50 10 90 50 20 90 [dexA] [dexA]
    (by decide) (by decide) ⟨by decide, by decide, by decide⟩
    ⟨by decide, by decide, by decide⟩ ⟨by decide, by decide⟩
    ⟨by decide, by decide⟩

/-! ## Deadline stamping in the Signer (Claim C9) -/

/-- Claim C9 counterexample: `createProposal` asked for a 200000-second
offset (over 55 hours) neither rejects nor clips — it returns a proposal
stamped `deadline = now + 200000`, which the Signer's own
`validateProposal` window (at most 24 hours ahead) then rejects: a
Proposal outside the configured window was created. -/
theorem create_proposal_oversized_offset :
    ((createProposal [] 1000000 5 0 "swap" hash66 200000).1).deadline =
      1000000 + 200000 ∧
    validateProposal 1000000 (createProposal [] 1000000 5 0 "swap" hash66 200000).1 =
      false ∧
    validateProposal 1000000 (createProposal [] 1000000 5 0 "swap" hash66 3600).1 =
      true :=
  ⟨rfl, by decide, by decide⟩

/-- Claim C9 (amended): `createProposal` always stamps
`deadline = now + deadlineOffset` and `nonce = tracked + 1` for the vault,
for EVERY caller-supplied offset — no bound of any kind is applied at
creation; the only deadline window in the Signer is the separate
`validateProposal` check, which `createProposal` does not invoke, and
which accepts exactly `now < deadline ≤ now + 86400` for otherwise
well-formed proposals. -/
theorem create_proposal_unbounded_deadline (m : NonceMap) (now : Int)
    (vault : Address) (actionType : Int) (params ipfsHash : String)
    (deadlineOffset : Int) :
    ((createProposal m now vault actionType params ipfsHash deadlineOffset).1).deadline =
      now + deadlineOffset ∧
    ((createProposal m now vault actionType params ipfsHash deadlineOffset).1).nonce =
      (lookupNonce m vault : Int) + 1 ∧
    (validateProposal now
        (createProposal m now vault actionType params ipfsHash deadlineOffset).1 = true →
      now < now + deadlineOffset ∧ now + deadlineOffset ≤ now + 86400) := by
  refine ⟨rfl, by simp [createProposal, getNextNonce], ?_⟩
  intro h
  rw [validateProposal] at h
  simp only [Bool.and_eq_true, decide_eq_true_iff] at h
  have h6 : now < now + deadlineOffset := h.1.2
  have h7 : now + deadlineOffset ≤ now + 86400 := h.2
  exact ⟨h6, h7⟩

/-- Claim C10: with an active policy and an allowed venue, a Swap, Lend or
Borrow decoding to `vaultBalance = 0` makes `validateAction` abort with
the division-by-zero panic instead of returning a `(false, reason)`
rejection, and an `executeProposal` carrying such params surfaces that
panic (an untyped revert), not a `PolicyViolation`. -/
theorem validate_action_zero_balance_panics :
    validateAction pmA true vaultA 0 (abiEncode3 dexA 100 0) =
      .error .panicDivZero ∧
    validateAction pmA true vaultA 1 (abiEncode2 100 0) =
      .error .panicDivZero ∧
    validateAction pmA true vaultA 2 (abiEncode2 100 0) =
      .error .panicDivZero ∧
    (executeProposal s0 env0 pZero sigZ).1 =
      .rejected (.policyPanic .panicDivZero) :=
  ⟨rfl, rfl, rfl, rfl⟩

end SomiSentinel
